import Mathlib

/-!
A shallow embedding of the `python_twonms_config` repository
(`twonms/config/config.py`): the `Config` class, its layer properties
(`required_config`, `environment_config`, `cli_config`, `file_config`),
the private merge step and the public `create` constructor, together with
a model of the external collaborators the code calls into
(`OmegaConf.merge`, `OmegaConf.create`, `OmegaConf.load`,
`OmegaConf.from_cli`, `os.environ`, `os.path`, `load_dotenv`).
-/

/-- Configuration values as produced by OmegaConf: scalar leaves (strings,
integers, booleans) and nested mappings, modelled as association lists. -/
inductive Value where
  | str : String → Value
  | int : Int → Value
  | bool : Bool → Value
  | dict : List (String × Value) → Value

/-- Association-list lookup: the binding of key `k`, if any. -/
def assocLookup {α : Type} (k : String) : List (String × α) → Option α
  | [] => none
  | (k2, v) :: rest => if k2 = k then some v else assocLookup k rest

/-- Is this value a mapping node? -/
def Value.isDict : Value → Bool
  | .dict _ => true
  | _ => false

mutual

/-- Modelled from the spec: `OmegaConf.merge` of two values (binary step of
the n-ary merge), the external deep-merge routine the repository calls.
Mapping nodes are merged key-by-key recursively; any other combination is
resolved by the second (higher-precedence) argument replacing the first. -/
def Value.merge : Value → Value → Value
  | .dict a, .dict b =>
      .dict (mergeInto a b ++ b.filter (fun p => (assocLookup p.1 a).isNone))
  | _, v => v

/-- The entries of the base mapping `a`, with every key that also occurs in
the override mapping `b` replaced by the (recursive) merge of the two
bindings. -/
def mergeInto : List (String × Value) → List (String × Value) → List (String × Value)
  | [], _ => []
  | (k, va) :: rest, b =>
    match assocLookup k b with
    | some vb => (k, Value.merge va vb) :: mergeInto rest b
    | none => (k, va) :: mergeInto rest b

end

/-- Lookup of a top-level key inside a value (none on scalar nodes). -/
def Value.lookupKey (k : String) : Value → Option Value
  | .dict l => assocLookup k l
  | _ => none

example : Value.merge (.dict [("a", .int 1)]) (.dict [("a", .int 2), ("b", .int 3)]) =
    .dict [("a", .int 2), ("b", .int 3)] := rfl

example : Value.merge
    (.dict [("a", .dict [("b", .int 1), ("c", .int 2)])])
    (.dict [("a", .dict [("b", .int 3)])]) =
    .dict [("a", .dict [("b", .int 3), ("c", .int 2)])] := rfl

/-- Errors the Python code can raise to its caller. -/
inductive PyErr where
  | attributeError : PyErr
  | yamlParseError : PyErr
  | cliParseError : PyErr
deriving DecidableEq

/-- A file on disk, modelled by the outcome of parsing it as YAML:
`OmegaConf.load` either returns the parsed value or raises. -/
inductive FileContent where
  | yaml : Value → FileContent
  | malformed : FileContent

/-- The process command line, modelled by the outcome of
`OmegaConf.from_cli`: either the parsed key/value pairs or a parse error. -/
inductive CliInput where
  | args : List (String × Value) → CliInput
  | malformed : CliInput

/-- The `required_config` argument (a dict or a YAML string), modelled by
the outcome of `OmegaConf.create` on it: the parsed value, or a parse
failure. -/
inductive RequiredInput where
  | parses : Value → RequiredInput
  | malformed : RequiredInput

/-- The external state `create` reads: the filesystem (directories that
exist, files that exist with their contents), the process environment, the
local dotenv file, and the command line. -/
structure ConfigState where
  fs_dirs : List String
  fs_files : List (String × FileContent)
  environ : List (String × String)
  dotenv : List (String × String)
  cli : CliInput

/-- Modelled from the spec: `load_dotenv()` from python-dotenv loads the
local `.env` file into the process environment as a side effect, without
overriding variables that are already set. -/
def load_dotenv (s : ConfigState) : ConfigState :=
  { s with environ :=
      s.environ ++ s.dotenv.filter (fun p => (assocLookup p.1 s.environ).isNone) }

/-- `os.environ[k] = v`: set an environment variable, replacing an existing
binding or appending a new one. -/
def setEnv (k v : String) (e : List (String × String)) : List (String × String) :=
  match assocLookup k e with
  | some _ => e.map (fun p => if p.1 = k then (k, v) else p)
  | none => e ++ [(k, v)]

/-- Python truthiness of an optional string (`None` and `""` are falsy). -/
def strTruthy : Option String → Bool
  | none => false
  | some st => st != ""

/-- The `Config` class: the five fields set by `__init__` (with
`allowed_envvars or []` already applied by the caller of the structure). -/
structure Config where
  _path : String
  _conf : Option String
  _env : Option String
  _required_config : RequiredInput
  allowed_envvars : List String

/-- `Config.ENVIRONMENT_MAPPING`: the fixed environment-tag → filename
table. -/
def ENVIRONMENT_MAPPING : List (String × String) :=
  [("DEV", "development.yaml"),
   ("PROD", "production.yaml"),
   ("DEBUG", "debug.yaml"),
   ("TEST", "test.yaml")]

/-- `Config.DEFAULT_ALLOWED_ENVVARS`: the environment variables read by
default. -/
def DEFAULT_ALLOWED_ENVVARS : List String := ["environment", "debug"]

/-- The `path` property: the configured directory if it exists on disk,
otherwise `None`. -/
def Config.path (c : Config) (s : ConfigState) : Option String :=
  if s.fs_dirs.contains c._path then some c._path else none

/-- Python's `str.upper()` on the ASCII tags used here, written so that it
evaluates by kernel reduction. -/
def pyUpper (s : String) : String :=
  ⟨s.data.map Char.toUpper⟩

/-- The `env` property: `self._env.upper()` (an `AttributeError` when
`_env` is `None`), kept only when it is a key of `ENVIRONMENT_MAPPING`. -/
def Config.env (c : Config) : Except PyErr (Option String) :=
  match c._env with
  | none => .error .attributeError
  | some st =>
    let e := pyUpper st
    if (ENVIRONMENT_MAPPING.map Prod.fst).contains e then .ok (some e) else .ok none

/-- The `conf` property: the explicit `_conf` filename when truthy,
otherwise the conventional filename for the resolved environment, otherwise
`None`. Propagates the error of the `env` property. -/
def Config.conf (c : Config) : Except PyErr (Option String) :=
  if strTruthy c._conf then .ok c._conf
  else
    match c.env with
    | .error e => .error e
    | .ok (some e) =>
      if (ENVIRONMENT_MAPPING.map Prod.fst).contains e then
        .ok (assocLookup e ENVIRONMENT_MAPPING)
      else .ok none
    | .ok none => .ok none

/-- The `required_config` property: `OmegaConf.create(self._required_config)`
with any exception swallowed into an empty mapping. -/
def Config.required_config (c : Config) : Value :=
  match c._required_config with
  | .parses v => v
  | .malformed => Value.dict []

/-- The `environment_config` property: after `load_dotenv()`, the mapping of
every allowed key whose value in `os.environ` is present and truthy
(non-empty). Returns the value together with the mutated process state. -/
def Config.environment_config (c : Config) (s : ConfigState) : Value × ConfigState :=
  let s2 := load_dotenv s
  (Value.dict (c.allowed_envvars.filterMap (fun x =>
      match assocLookup x s2.environ with
      | some v => if v = "" then none else some (x, Value.str v)
      | none => none)),
   s2)

/-- The `cli_config` property: `OmegaConf.create` over the items of
`OmegaConf.from_cli()`; a malformed command line raises. -/
def Config.cli_config (_c : Config) (s : ConfigState) : Except PyErr Value :=
  match s.cli with
  | .args l => .ok (Value.dict l)
  | .malformed => .error .cliParseError

/-- The `file_config` property: when `self.path and self.conf` are truthy
and the joined filename exists, `OmegaConf.load` it (raising on malformed
YAML); otherwise an empty mapping. -/
def Config.file_config (c : Config) (s : ConfigState) : Except PyErr Value :=
  match c.path s with
  | none => .ok (Value.dict [])
  | some p =>
    match c.conf with
    | .error e => .error e
    | .ok none => .ok (Value.dict [])
    | .ok (some f) =>
      if f = "" then .ok (Value.dict [])
      else
        match assocLookup (p ++ "/" ++ f) s.fs_files with
        | some (.yaml v) => .ok v
        | some .malformed => .error .yamlParseError
        | none => .ok (Value.dict [])

/-- `OmegaConf.merge(required, env, file, cli)`: the n-ary merge is the left
fold of the binary merge, later arguments overriding earlier ones. -/
def mergeAll (r e f cl : Value) : Value :=
  Value.merge (Value.merge (Value.merge r e) f) cl

/-- The private `Config.__create` method: evaluate the four layer
properties (the environment layer mutates the process state via
`load_dotenv`; `cli_config` is read before `file_config`) and deep-merge
them in precedence order. -/
def Config.createImpl (c : Config) (s : ConfigState) : Except PyErr (Value × ConfigState) :=
  let required := c.required_config
  let ec := c.environment_config s
  match c.cli_config ec.2 with
  | .error e => .error e
  | .ok clic =>
    match c.file_config ec.2 with
    | .error e => .error e
    | .ok filec => .ok (mergeAll required ec.1 filec clic, ec.2)

/-- The static `Config.create` constructor with the source's default
arguments (`path="./conf"`, `conf=None`, `env="PROD"`,
`required_config={}`, `allowed_envvars=DEFAULT_ALLOWED_ENVVARS`);
`__init__` applies `allowed_envvars or []`. -/
def Config.create (s : ConfigState)
    (path : String := "./conf")
    (conf : Option String := none)
    (env : Option String := some "PROD")
    (required_config : RequiredInput := .parses (Value.dict []))
    (allowed_envvars : Option (List String) := some DEFAULT_ALLOWED_ENVVARS) :
    Except PyErr (Value × ConfigState) :=
  let obj : Config :=
    ⟨path, conf, env, required_config, allowed_envvars.getD []⟩
  obj.createImpl s

/-! ### Lookup lemmas about the deep merge -/

theorem assocLookup_append {α : Type} (k : String) (l1 l2 : List (String × α)) :
    assocLookup k (l1 ++ l2) =
      match assocLookup k l1 with
      | some v => some v
      | none => assocLookup k l2 := by
  induction l1 with
  | nil => simp [assocLookup]
  | cons p rest ih =>
    obtain ⟨k2, v⟩ := p
    by_cases h : k2 = k <;> simp [assocLookup, h, ih]

theorem assocLookup_filter_key {α : Type} (k : String) (q : String → Bool)
    (l : List (String × α)) :
    assocLookup k (l.filter (fun p => q p.1)) =
      if q k then assocLookup k l else none := by
  induction l with
  | nil => simp [assocLookup]
  | cons p rest ih =>
    obtain ⟨k2, v⟩ := p
    by_cases hk : k2 = k
    · subst hk
      by_cases hq : q k2 <;> simp [assocLookup, hq, ih]
    · by_cases hq : q k2 <;> simp [assocLookup, hk, hq, ih]

theorem assocLookup_mergeInto (k : String) (a b : List (String × Value)) :
    assocLookup k (mergeInto a b) =
      match assocLookup k a with
      | some va =>
        some (match assocLookup k b with
              | some vb => Value.merge va vb
              | none => va)
      | none => none := by
  induction a with
  | nil => simp [mergeInto, assocLookup]
  | cons p rest ih =>
    obtain ⟨k2, va⟩ := p
    by_cases hk : k2 = k
    · subst hk
      cases hb : assocLookup k2 b <;>
        simp [mergeInto, assocLookup, hb]
    · cases hb : assocLookup k2 b <;>
        simp [mergeInto, assocLookup, hk, hb, ih]

/-- The second argument of the binary merge wins outright whenever it is not
a mapping node. -/
theorem merge_nonDict (va vb : Value) (h : vb.isDict = false) :
    Value.merge va vb = vb := by
  cases va <;> cases vb <;> simp_all [Value.merge, Value.isDict]

/-- Characterization of key lookup in the merge of two mappings. -/
theorem lookup_merge_dict (k : String) (a b : List (String × Value)) :
    Value.lookupKey k (Value.merge (.dict a) (.dict b)) =
      match assocLookup k b with
      | some vb =>
        some (match assocLookup k a with
              | some va => Value.merge va vb
              | none => vb)
      | none => assocLookup k a := by
  show assocLookup k (mergeInto a b ++ b.filter (fun p => (assocLookup p.1 a).isNone)) = _
  rw [assocLookup_append, assocLookup_mergeInto,
    assocLookup_filter_key k (fun x => (assocLookup x a).isNone) b]
  cases ha : assocLookup k a <;> cases hb : assocLookup k b <;>
    simp [ha, hb]

/-- Does key `k` map to something other than a mapping node (or to nothing)
in the association list `l`? -/
def nonDictAt (k : String) (l : List (String × Value)) : Bool :=
  match assocLookup k l with
  | some v => !v.isDict
  | none => true

/-- When the override layer's binding at `k` is not a mapping, the merge at
`k` is plain precedence: the override's binding, else the base's. -/
theorem lookup_merge_nonDict (k : String) (a b : List (String × Value))
    (h : nonDictAt k b = true) :
    Value.lookupKey k (Value.merge (.dict a) (.dict b)) =
      match assocLookup k b with
      | some vb => some vb
      | none => assocLookup k a := by
  rw [lookup_merge_dict]
  unfold nonDictAt at h
  cases hb : assocLookup k b with
  | none => simp
  | some vb =>
    rw [hb] at h
    cases ha : assocLookup k a <;>
      simp [merge_nonDict _ _ (by simpa using h)]

/-- Key lookup across the four-layer merge, when the binding of the key in
each of the three overriding layers is not a mapping node: the value of the
highest-precedence layer that binds the key. -/
theorem lookup_mergeAll (k : String) (R E F L : List (String × Value))
    (hE : nonDictAt k E = true) (hF : nonDictAt k F = true)
    (hL : nonDictAt k L = true) :
    Value.lookupKey k (mergeAll (.dict R) (.dict E) (.dict F) (.dict L)) =
      match assocLookup k L with
      | some v => some v
      | none =>
        match assocLookup k F with
        | some v => some v
        | none =>
          match assocLookup k E with
          | some v => some v
          | none => assocLookup k R := by
  obtain ⟨D1, hD1⟩ : ∃ D, Value.merge (.dict R) (.dict E) = .dict D := ⟨_, rfl⟩
  obtain ⟨D2, hD2⟩ : ∃ D, Value.merge (.dict D1) (.dict F) = .dict D := ⟨_, rfl⟩
  have l1 := lookup_merge_nonDict k R E hE
  rw [hD1] at l1
  have l2 := lookup_merge_nonDict k D1 F hF
  rw [hD2] at l2
  have l3 := lookup_merge_nonDict k D2 L hL
  show Value.lookupKey k
      (Value.merge (Value.merge (Value.merge (.dict R) (.dict E)) (.dict F)) (.dict L)) = _
  rw [hD1, hD2, l3]
  cases hLk : assocLookup k L with
  | some v => rfl
  | none =>
    show Value.lookupKey k (.dict D2) = _
    rw [l2]
    cases hFk : assocLookup k F with
    | some v => rfl
    | none =>
      show Value.lookupKey k (.dict D1) = _
      rw [l1]

/-- The successful outcomes of `Config.__create`: both inner properties
succeeded, the result is the four-way merge, and the returned state is the
post-dotenv one. -/
theorem createImpl_eq_ok (c : Config) (s : ConfigState) (m : Value) (s2 : ConfigState) :
    c.createImpl s = .ok (m, s2) ↔
      ∃ clic filec,
        c.cli_config (load_dotenv s) = .ok clic ∧
        c.file_config (load_dotenv s) = .ok filec ∧
        m = mergeAll c.required_config (c.environment_config s).1 filec clic ∧
        s2 = load_dotenv s := by
  unfold Config.createImpl
  cases hc : c.cli_config (load_dotenv s) with
  | error e => simp [show c.cli_config (c.environment_config s).2 = .error e from hc]
  | ok clic =>
    cases hf : c.file_config (load_dotenv s) with
    | error e =>
      simp [show c.cli_config (c.environment_config s).2 = .ok clic from hc,
        show c.file_config (c.environment_config s).2 = .error e from hf]
    | ok filec =>
      simp only [show c.cli_config (c.environment_config s).2 = .ok clic from hc,
        show c.file_config (c.environment_config s).2 = .ok filec from hf]
      constructor
      · intro h
        injection h with h
        exact ⟨clic, filec, rfl, rfl, (congrArg Prod.fst h).symm,
          (congrArg Prod.snd h).symm⟩
      · rintro ⟨c2, f2, hc2, hf2, hm, hs⟩
        injection hc2.symm with e1
        injection hf2.symm with e2
        rw [hm, hs, e1, e2]
        rfl

/-- Unfolded form of `Config.__create` with the post-dotenv state made
explicit. -/
theorem createImpl_eq (c : Config) (s : ConfigState) :
    c.createImpl s =
      match c.cli_config (load_dotenv s) with
      | .error e => .error e
      | .ok clic =>
        match c.file_config (load_dotenv s) with
        | .error e => .error e
        | .ok filec =>
          .ok (mergeAll c.required_config (c.environment_config s).1 filec clic,
            load_dotenv s) := rfl

/-- `cli_config` reads only the command line of the state. -/
theorem cli_config_ext (c : Config) (s t : ConfigState) (h : s.cli = t.cli) :
    c.cli_config s = c.cli_config t := by
  unfold Config.cli_config
  rw [h]

/-- `file_config` reads only the filesystem of the state. -/
theorem file_config_ext (c : Config) (s t : ConfigState)
    (h1 : s.fs_dirs = t.fs_dirs) (h2 : s.fs_files = t.fs_files) :
    c.file_config s = c.file_config t := by
  unfold Config.file_config Config.path
  rw [h1, h2]

/-- Head-step equation for `assocLookup`. -/
theorem assocLookup_cons {α : Type} (x k2 : String) (w : α)
    (rest : List (String × α)) :
    assocLookup x ((k2, w) :: rest) =
      if k2 = x then some w else assocLookup x rest := rfl

/-- Overwriting the binding of key `k` leaves every lookup of a key other
than `k` unchanged. -/
theorem assocLookup_map_overwrite (x k v : String) (hxk : x ≠ k)
    (l : List (String × String)) :
    assocLookup x (l.map (fun p => if p.1 = k then (k, v) else p)) =
      assocLookup x l := by
  have hkx : ¬ (k = x) := fun h => hxk h.symm
  induction l with
  | nil => rfl
  | cons p rest ih =>
    obtain ⟨k2, w2⟩ := p
    show assocLookup x ((if k2 = k then (k, v) else (k2, w2)) ::
        rest.map (fun p => if p.1 = k then (k, v) else p)) =
      assocLookup x ((k2, w2) :: rest)
    by_cases h2 : k2 = k
    · rw [if_pos h2, assocLookup_cons, assocLookup_cons, if_neg hkx,
        if_neg (fun hh : k2 = x => hkx (h2.symm.trans hh))]
      exact ih
    · rw [if_neg h2, assocLookup_cons, assocLookup_cons]
      by_cases hx2 : k2 = x
      · rw [if_pos hx2, if_pos hx2]
      · rw [if_neg hx2, if_neg hx2]
        exact ih

/-- Setting one environment variable leaves every other lookup unchanged. -/
theorem assocLookup_setEnv_ne (x k v : String) (e : List (String × String))
    (hxk : x ≠ k) :
    assocLookup x (setEnv k v e) = assocLookup x e := by
  have hkx : ¬ (k = x) := fun h => hxk h.symm
  unfold setEnv
  cases hk : assocLookup k e with
  | none =>
    rw [assocLookup_append]
    cases hx : assocLookup x e with
    | some w => simp
    | none => simp [assocLookup, hkx]
  | some w => exact assocLookup_map_overwrite x k v hxk e

/-- The effective environment after loading the dotenv file: the process
binding when present, else the dotenv binding. -/
theorem assocLookup_load_dotenv (x : String) (s : ConfigState) :
    assocLookup x (load_dotenv s).environ =
      match assocLookup x s.environ with
      | some v => some v
      | none => assocLookup x s.dotenv := by
  show assocLookup x (s.environ ++
    s.dotenv.filter (fun p => (assocLookup p.1 s.environ).isNone)) = _
  rw [assocLookup_append,
    assocLookup_filter_key x (fun y => (assocLookup y s.environ).isNone)]
  cases h : assocLookup x s.environ <;> simp [h]

/-- The environment layer's association list is pointwise determined by the
effective environment lookups of the allowed keys. -/
theorem filterMap_env_congr (l : List String) (e1 e2 : List (String × String))
    (h : ∀ x ∈ l, assocLookup x e1 = assocLookup x e2) :
    (l.filterMap (fun x =>
      match assocLookup x e1 with
      | some v => if v = "" then none else some (x, Value.str v)
      | none => none)) =
    (l.filterMap (fun x =>
      match assocLookup x e2 with
      | some v => if v = "" then none else some (x, Value.str v)
      | none => none)) := by
  induction l with
  | nil => rfl
  | cons a rest ih =>
    simp only [List.filterMap_cons]
    rw [h a (List.mem_cons_self a rest),
      ih (fun x hx => h x (List.mem_cons_of_mem a hx))]

/-- A key never produced by the filterMap function is absent from its
output. -/
theorem assocLookup_filterMap_none {α : Type} (k : String)
    (f : String → Option (String × α)) (l : List String)
    (hfk : f k = none) (hkey : ∀ x p, f x = some p → p.1 = x) :
    assocLookup k (l.filterMap f) = none := by
  induction l with
  | nil => rfl
  | cons a rest ih =>
    simp only [List.filterMap_cons]
    cases hfa : f a with
    | none => exact ih
    | some p =>
      obtain ⟨p1, p2⟩ := p
      have hp : p1 = a := hkey a (p1, p2) hfa
      have hak : ¬ (p1 = k) := by
        intro hcontra
        rw [hp] at hcontra
        rw [hcontra] at hfa
        rw [hfk] at hfa
        cases hfa
      rw [assocLookup_cons, if_neg hak]
      exact ih

/-- C1: every `create()` call returns the deep merge of the four layers in
the fixed precedence order required defaults < environment variables <
file config < CLI overrides: at any key whose bindings in the overriding
layers are not mapping nodes, the result holds the value of the
highest-precedence layer that defines the key, and with that layer's entry
absent it falls back to the next layer down the chain. -/
theorem create_precedence_chain
    (s : ConfigState) (path : String) (conf : Option String) (env : Option String)
    (rc : RequiredInput) (av : Option (List String))
    (R E F L : List (String × Value)) (k : String) (m : Value) (s2 : ConfigState)
    (hR : (⟨path, conf, env, rc, av.getD []⟩ : Config).required_config = .dict R)
    (hE : ((⟨path, conf, env, rc, av.getD []⟩ : Config).environment_config s).1 = .dict E)
    (hL : (⟨path, conf, env, rc, av.getD []⟩ : Config).cli_config (load_dotenv s) =
      .ok (.dict L))
    (hF : (⟨path, conf, env, rc, av.getD []⟩ : Config).file_config (load_dotenv s) =
      .ok (.dict F))
    (hnE : nonDictAt k E = true) (hnF : nonDictAt k F = true)
    (hnL : nonDictAt k L = true)
    (hcr : Config.create s path conf env rc av = .ok (m, s2)) :
    Value.lookupKey k m =
      match assocLookup k L with
      | some v => some v
      | none =>
        match assocLookup k F with
        | some v => some v
        | none =>
          match assocLookup k E with
          | some v => some v
          | none => assocLookup k R := by
  obtain ⟨clic, filec, hc', hf', hm, -⟩ :=
    (createImpl_eq_ok ⟨path, conf, env, rc, av.getD []⟩ s m s2).mp hcr
  injection (hc'.symm.trans hL) with ec
  injection (hf'.symm.trans hF) with ef
  rw [hm, ec, ef, hR, hE]
  exact lookup_mergeAll k R E F L hnE hnF hnL

/-- Witness for C1: required, environment and CLI layers all bind key `k`;
the CLI value wins. -/
theorem create_precedence_chain_witness :
    ((⟨"./conf", none, some "PROD", .parses (.dict [("k", .str "rv")]),
        (some ["k"] : Option (List String)).getD []⟩ : Config).required_config =
      .dict [("k", .str "rv")]) ∧
    (((⟨"./conf", none, some "PROD", .parses (.dict [("k", .str "rv")]),
        (some ["k"] : Option (List String)).getD []⟩ : Config).environment_config
        ⟨[], [], [("k", "ev")], [], .args [("k", .str "cv")]⟩).1 =
      .dict [("k", .str "ev")]) ∧
    ((⟨"./conf", none, some "PROD", .parses (.dict [("k", .str "rv")]),
        (some ["k"] : Option (List String)).getD []⟩ : Config).cli_config
        (load_dotenv ⟨[], [], [("k", "ev")], [], .args [("k", .str "cv")]⟩) =
      .ok (.dict [("k", .str "cv")])) ∧
    ((⟨"./conf", none, some "PROD", .parses (.dict [("k", .str "rv")]),
        (some ["k"] : Option (List String)).getD []⟩ : Config).file_config
        (load_dotenv ⟨[], [], [("k", "ev")], [], .args [("k", .str "cv")]⟩) =
      .ok (.dict [])) ∧
    nonDictAt "k" [("k", Value.str "ev")] = true ∧
    nonDictAt "k" ([] : List (String × Value)) = true ∧
    nonDictAt "k" [("k", Value.str "cv")] = true ∧
    (Config.create ⟨[], [], [("k", "ev")], [], .args [("k", .str "cv")]⟩ "./conf" none
        (some "PROD") (.parses (.dict [("k", .str "rv")])) (some ["k"]) =
      .ok (.dict [("k", .str "cv")],
        ⟨[], [], [("k", "ev")], [], .args [("k", .str "cv")]⟩)) ∧
    Value.lookupKey "k" (.dict [("k", .str "cv")]) = some (.str "cv") :=
  ⟨rfl, rfl, rfl, rfl, rfl, rfl, rfl, rfl,
    create_precedence_chain ⟨[], [], [("k", "ev")], [], .args [("k", .str "cv")]⟩
      "./conf" none (some "PROD") (.parses (.dict [("k", .str "rv")])) (some ["k"])
      [("k", .str "rv")] [("k", .str "ev")] [] [("k", .str "cv")] "k"
      (.dict [("k", .str "cv")])
      ⟨[], [], [("k", "ev")], [], .args [("k", .str "cv")]⟩
      rfl rfl rfl rfl rfl rfl rfl rfl⟩

/-- C2: when a lower-precedence layer defines a nested mapping and a
higher-precedence layer overrides one key inside it, the merged result of
`create()` combines the two mappings key-by-key: the overridden key takes
the higher layer's value while the lower layer's sibling keys survive (here
the required layer defines `ka.kb = v1, ka.kc = v2` and the config file
defines `ka.kb = v3`; the result has `ka.kb = v3` and `ka.kc = v2`). -/
theorem create_deep_merge_siblings
    (s : ConfigState) (pathd fname ka kb kc : String) (v1 v2 v3 : Value)
    (hbc : kb ≠ kc) (hv3 : v3.isDict = false) (hfname : fname ≠ "")
    (hdir : s.fs_dirs.contains pathd = true)
    (hfile : assocLookup (pathd ++ "/" ++ fname) s.fs_files =
      some (.yaml (.dict [(ka, .dict [(kb, v3)])])))
    (hcli : s.cli = .args []) :
    ∃ m s2 inner,
      Config.create s pathd (some fname) (some "PROD")
          (.parses (.dict [(ka, .dict [(kb, v1), (kc, v2)])])) (some []) =
        .ok (m, s2) ∧
      Value.lookupKey ka m = some (.dict inner) ∧
      assocLookup kb inner = some v3 ∧
      assocLookup kc inner = some v2 := by
  have hfname' : (fname != "") = true := by simpa using hfname
  obtain ⟨inner, hinner⟩ :
      ∃ i, Value.merge (.dict [(kb, v1), (kc, v2)]) (.dict [(kb, v3)]) = .dict i :=
    ⟨_, rfl⟩
  have hcli' : Config.cli_config ⟨pathd, some fname, some "PROD",
      .parses (.dict [(ka, .dict [(kb, v1), (kc, v2)])]), []⟩ (load_dotenv s) =
      .ok (.dict []) := by
    simp [Config.cli_config, load_dotenv, hcli]
  have hfile' : Config.file_config ⟨pathd, some fname, some "PROD",
      .parses (.dict [(ka, .dict [(kb, v1), (kc, v2)])]), []⟩ (load_dotenv s) =
      .ok (.dict [(ka, .dict [(kb, v3)])]) := by
    have hdir' : pathd ∈ s.fs_dirs := by simpa using hdir
    simp [Config.file_config, Config.path, Config.conf, strTruthy, load_dotenv,
      hdir', hfname', hfname, hfile]
  refine ⟨_, load_dotenv s, inner,
    (createImpl_eq_ok ⟨pathd, some fname, some "PROD",
        .parses (.dict [(ka, .dict [(kb, v1), (kc, v2)])]), []⟩ s _ _).mpr
      ⟨.dict [], .dict [(ka, .dict [(kb, v3)])], hcli', hfile', rfl, rfl⟩,
    ?_, ?_, ?_⟩
  · show Value.lookupKey ka
      (mergeAll (.dict [(ka, .dict [(kb, v1), (kc, v2)])]) (.dict [])
        (.dict [(ka, .dict [(kb, v3)])]) (.dict [])) = some (.dict inner)
    obtain ⟨D1, hD1⟩ :
        ∃ D, Value.merge (.dict [(ka, Value.dict [(kb, v1), (kc, v2)])]) (.dict []) =
          .dict D := ⟨_, rfl⟩
    obtain ⟨D2, hD2⟩ :
        ∃ D, Value.merge (.dict D1) (.dict [(ka, Value.dict [(kb, v3)])]) = .dict D :=
      ⟨_, rfl⟩
    have l1 := lookup_merge_dict ka [(ka, Value.dict [(kb, v1), (kc, v2)])] []
    rw [hD1] at l1
    simp only [assocLookup, if_pos rfl] at l1
    have l1' : assocLookup ka D1 = some (Value.dict [(kb, v1), (kc, v2)]) := l1
    have l2 := lookup_merge_dict ka D1 [(ka, Value.dict [(kb, v3)])]
    rw [hD2] at l2
    simp only [assocLookup, if_pos rfl, l1'] at l2
    have l2' : assocLookup ka D2 =
        some (Value.merge (Value.dict [(kb, v1), (kc, v2)]) (Value.dict [(kb, v3)])) := l2
    rw [hinner] at l2'
    have l3 := lookup_merge_dict ka D2 []
    simp only [assocLookup, l2'] at l3
    show Value.lookupKey ka
      (Value.merge (Value.merge (Value.merge
        (.dict [(ka, Value.dict [(kb, v1), (kc, v2)])]) (.dict []))
        (.dict [(ka, Value.dict [(kb, v3)])])) (.dict [])) = some (.dict inner)
    rw [hD1, hD2]
    exact l3
  · have hkb := lookup_merge_dict kb [(kb, v1), (kc, v2)] [(kb, v3)]
    rw [hinner] at hkb
    simp only [assocLookup, if_pos rfl] at hkb
    have hkb' : assocLookup kb inner = some (Value.merge v1 v3) := hkb
    rw [merge_nonDict v1 v3 hv3] at hkb'
    exact hkb'
  · have hkc := lookup_merge_dict kc [(kb, v1), (kc, v2)] [(kb, v3)]
    rw [hinner] at hkc
    simp only [assocLookup, if_neg hbc, if_pos rfl] at hkc
    exact hkc

/-- Membership in the key list of an association list is definedness of the
lookup. -/
theorem contains_keys_eq_isSome {α : Type} (u : String) (l : List (String × α)) :
    (l.map Prod.fst).contains u = (assocLookup u l).isSome := by
  induction l with
  | nil => rfl
  | cons p r ih =>
    obtain ⟨k2, v⟩ := p
    show (k2 :: r.map Prod.fst).contains u = (assocLookup u ((k2, v) :: r)).isSome
    rw [assocLookup_cons]
    by_cases h : k2 = u
    · subst h
      simp
    · have h2 : ¬ (u = k2) := fun hh => h hh.symm
      have hb : (u == k2) = false := by simp [h2]
      rw [List.contains_cons, ih, hb, Bool.false_or, if_neg h]

/-- C4: config-file name resolution. First conjunct: an explicit (truthy)
`conf` is used unchanged, whatever the `env` tag is (even `None`). Second
conjunct: with `conf` absent, the filename is the fixed-table lookup of the
uppercased tag (so matching is case-insensitive). Third conjunct: when the
uppercased tag is not in the table and `conf` is absent, no file is read —
the file layer is empty for every filesystem state. -/
theorem conf_name_resolution :
    (∀ (path : String) (env : Option String) (rc : RequiredInput)
       (avl : List String) (f : String), f ≠ "" →
       (⟨path, some f, env, rc, avl⟩ : Config).conf = .ok (some f)) ∧
    (∀ (path : String) (conf : Option String) (rc : RequiredInput)
       (avl : List String) (e : String), strTruthy conf = false →
       (⟨path, conf, some e, rc, avl⟩ : Config).conf =
         .ok (assocLookup (pyUpper e) ENVIRONMENT_MAPPING)) ∧
    (∀ (path : String) (conf : Option String) (rc : RequiredInput)
       (avl : List String) (e : String) (s : ConfigState),
       strTruthy conf = false →
       assocLookup (pyUpper e) ENVIRONMENT_MAPPING = none →
       (⟨path, conf, some e, rc, avl⟩ : Config).file_config s = .ok (.dict [])) := by
  refine ⟨?_, ?_, ?_⟩
  · intro path env rc avl f hf
    simp [Config.conf, strTruthy, hf]
  · intro path conf rc avl e hc
    simp only [Config.conf, Config.env, hc, Bool.false_eq_true, if_false]
    cases hm : (ENVIRONMENT_MAPPING.map Prod.fst).contains (pyUpper e) with
    | false =>
      have hnone : assocLookup (pyUpper e) ENVIRONMENT_MAPPING = none := by
        have hi := contains_keys_eq_isSome (pyUpper e) ENVIRONMENT_MAPPING
        rw [hm] at hi
        cases hl : assocLookup (pyUpper e) ENVIRONMENT_MAPPING with
        | none => rfl
        | some w =>
          rw [hl] at hi
          cases hi
      simp [hm, hnone]
    | true =>
      show (if (ENVIRONMENT_MAPPING.map Prod.fst).contains (pyUpper e) = true then
          Except.ok (assocLookup (pyUpper e) ENVIRONMENT_MAPPING)
        else Except.ok none) = Except.ok (assocLookup (pyUpper e) ENVIRONMENT_MAPPING)
      rw [hm]
      rfl
  · intro path conf rc avl e s hc hnone
    have hm : (ENVIRONMENT_MAPPING.map Prod.fst).contains (pyUpper e) = false := by
      rw [contains_keys_eq_isSome, hnone]
      rfl
    have henv : (⟨path, conf, some e, rc, avl⟩ : Config).env = .ok none := by
      show (if (ENVIRONMENT_MAPPING.map Prod.fst).contains (pyUpper e) = true then
          Except.ok (some (pyUpper e)) else Except.ok none) = Except.ok none
      rw [hm]
      rfl
    have hconf : (⟨path, conf, some e, rc, avl⟩ : Config).conf = .ok none := by
      simp only [Config.conf, hc, Bool.false_eq_true, if_false]
      rw [henv]
    unfold Config.file_config
    cases hp : Config.path ⟨path, conf, some e, rc, avl⟩ s with
    | none => simp
    | some p => simp [hconf]

/-- Witness for C4: an explicit filename wins even with `env=None`; the tag
`"dev"` resolves case-insensitively to `development.yaml`; the tag
`"unknown"` leaves the file layer empty although `./conf/production.yaml`
exists on disk. -/
theorem conf_name_resolution_witness :
    (("myconfig.yaml" : String) ≠ "" ∧
      (⟨"./conf", some "myconfig.yaml", none, .parses (.dict []), []⟩ :
        Config).conf = .ok (some "myconfig.yaml")) ∧
    (strTruthy none = false ∧
      (⟨"./conf", none, some "dev", .parses (.dict []), []⟩ : Config).conf =
        .ok (some "development.yaml")) ∧
    (strTruthy none = false ∧
      assocLookup (pyUpper "unknown") ENVIRONMENT_MAPPING = none ∧
      (⟨"./conf", none, some "unknown", .parses (.dict []), []⟩ :
          Config).file_config
          ⟨["./conf"], [("./conf/production.yaml", .yaml (.dict []))], [], [],
            .args []⟩ =
        .ok (.dict [])) := by
  refine ⟨⟨by decide, conf_name_resolution.1 "./conf" none (.parses (.dict [])) []
      "myconfig.yaml" (by decide)⟩,
    ⟨rfl, ?_⟩,
    ⟨rfl, by decide, conf_name_resolution.2.2 "./conf" none (.parses (.dict [])) []
      "unknown"
      ⟨["./conf"], [("./conf/production.yaml", .yaml (.dict []))], [], [], .args []⟩
      rfl (by decide)⟩⟩
  have h := conf_name_resolution.2.1 "./conf" none (.parses (.dict [])) [] "dev" rfl
  rw [h]
  rfl

/-- C3: the environment layer is the restriction of the process environment
to the allowed keys with non-empty values. First conjunct: setting a key
that is not in `allowedEnvVars` never changes the value returned by
`create()`. Second conjunct: an allowed key whose effective environment
value is empty contributes nothing to the environment layer. -/
theorem env_layer_allowlist_restriction :
    (∀ (s : ConfigState) (path : String) (conf env : Option String)
       (rc : RequiredInput) (av : Option (List String)) (k v : String),
       (av.getD []).contains k = false →
       (Config.create { s with environ := setEnv k v s.environ }
           path conf env rc av).map Prod.fst =
         (Config.create s path conf env rc av).map Prod.fst) ∧
    (∀ (s : ConfigState) (path : String) (conf env : Option String)
       (rc : RequiredInput) (avl : List String) (k : String),
       assocLookup k (load_dotenv s).environ = some "" →
       Value.lookupKey k
         ((⟨path, conf, env, rc, avl⟩ : Config).environment_config s).1 = none) := by
  constructor
  · intro s path conf env rc av k v hk
    have hnot : k ∉ av.getD [] := by simpa using hk
    have hEnv : ((⟨path, conf, env, rc, av.getD []⟩ : Config).environment_config
        { s with environ := setEnv k v s.environ }).1 =
        ((⟨path, conf, env, rc, av.getD []⟩ : Config).environment_config s).1 := by
      have hpt : ∀ x ∈ (av.getD []),
          assocLookup x (load_dotenv { s with environ := setEnv k v s.environ }).environ =
          assocLookup x (load_dotenv s).environ := by
        intro x hx
        have hxk : x ≠ k := fun heq => hnot (heq ▸ hx)
        rw [assocLookup_load_dotenv, assocLookup_load_dotenv]
        rw [show ({ s with environ := setEnv k v s.environ } : ConfigState).environ =
          setEnv k v s.environ from rfl]
        rw [assocLookup_setEnv_ne x k v s.environ hxk]
      exact congrArg Value.dict
        (filterMap_env_congr (av.getD [])
          (load_dotenv { s with environ := setEnv k v s.environ }).environ
          (load_dotenv s).environ hpt)
    show ((⟨path, conf, env, rc, av.getD []⟩ : Config).createImpl
        { s with environ := setEnv k v s.environ }).map Prod.fst =
      ((⟨path, conf, env, rc, av.getD []⟩ : Config).createImpl s).map Prod.fst
    rw [createImpl_eq, createImpl_eq,
      cli_config_ext _ (load_dotenv { s with environ := setEnv k v s.environ })
        (load_dotenv s) rfl,
      file_config_ext _ (load_dotenv { s with environ := setEnv k v s.environ })
        (load_dotenv s) rfl rfl,
      hEnv]
    cases hc : Config.cli_config ⟨path, conf, env, rc, av.getD []⟩ (load_dotenv s) with
    | error e => rfl
    | ok clic =>
      cases hf : Config.file_config ⟨path, conf, env, rc, av.getD []⟩ (load_dotenv s) with
      | error e => rfl
      | ok filec => rfl
  · intro s path conf env rc avl k h
    show Value.lookupKey k (Value.dict (avl.filterMap (fun x =>
      match assocLookup x (load_dotenv s).environ with
      | some v => if v = "" then none else some (x, Value.str v)
      | none => none))) = none
    apply assocLookup_filterMap_none
    · rw [h]
      rfl
    · intro x p hf
      cases hv : assocLookup x (load_dotenv s).environ with
      | none =>
        rw [hv] at hf
        cases hf
      | some v =>
        rw [hv] at hf
        have hred : (match some v with
            | some w => if w = "" then none else some (x, Value.str w)
            | none => none) = if v = "" then none else some (x, Value.str v) := rfl
        rw [hred] at hf
        by_cases hve : v = ""
        · rw [if_pos hve] at hf
          cases hf
        · rw [if_neg hve] at hf
          injection hf with hf
          rw [← hf]

/-- Witness for C3: setting the non-allowed variable `secret` does not
change the result; the allowed variable `debug` bound to the empty string
contributes nothing. -/
theorem env_layer_allowlist_restriction_witness :
    (((some ["debug"] : Option (List String)).getD []).contains "secret" = false ∧
      (Config.create
          { (⟨[], [], [], [], .args []⟩ : ConfigState) with
            environ := setEnv "secret" "x" [] }
          "./conf" none (some "PROD") (.parses (.dict [])) (some ["debug"])).map
          Prod.fst =
        (Config.create (⟨[], [], [], [], .args []⟩ : ConfigState)
          "./conf" none (some "PROD") (.parses (.dict [])) (some ["debug"])).map
          Prod.fst) ∧
    (assocLookup "debug"
        (load_dotenv ⟨[], [], [("debug", "")], [], .args []⟩).environ = some "" ∧
      Value.lookupKey "debug"
        ((⟨"./conf", none, some "PROD", .parses (.dict []), ["debug"]⟩ :
          Config).environment_config ⟨[], [], [("debug", "")], [], .args []⟩).1 =
        none) :=
  ⟨⟨rfl, env_layer_allowlist_restriction.1 ⟨[], [], [], [], .args []⟩
      "./conf" none (some "PROD") (.parses (.dict [])) (some ["debug"])
      "secret" "x" rfl⟩,
    ⟨rfl, env_layer_allowlist_restriction.2 ⟨[], [], [("debug", "")], [], .args []⟩
      "./conf" none (some "PROD") (.parses (.dict [])) ["debug"] "debug" rfl⟩⟩

/-- Witness for C2: `a.b=1, a.c=2` in the required layer, `a.b=3` in the
file layer; the merged result has `a.b=3` and `a.c=2`. -/
theorem create_deep_merge_siblings_witness :
    ("b" : String) ≠ "c" ∧
    (Value.int 3).isDict = false ∧
    ("c.yaml" : String) ≠ "" ∧
    (["d"] : List String).contains "d" = true ∧
    assocLookup ("d" ++ "/" ++ "c.yaml")
      [("d/c.yaml", FileContent.yaml (.dict [("a", .dict [("b", Value.int 3)])]))] =
      some (.yaml (.dict [("a", .dict [("b", Value.int 3)])])) ∧
    (⟨["d"], [("d/c.yaml", .yaml (.dict [("a", .dict [("b", Value.int 3)])]))],
        [], [], .args []⟩ : ConfigState).cli = .args [] ∧
    (∃ m s2 inner,
      Config.create
          ⟨["d"], [("d/c.yaml", .yaml (.dict [("a", .dict [("b", Value.int 3)])]))],
            [], [], .args []⟩
          "d" (some "c.yaml") (some "PROD")
          (.parses (.dict [("a", .dict [("b", Value.int 1), ("c", Value.int 2)])]))
          (some []) =
        .ok (m, s2) ∧
      Value.lookupKey "a" m = some (.dict inner) ∧
      assocLookup "b" inner = some (Value.int 3) ∧
      assocLookup "c" inner = some (Value.int 2)) :=
  ⟨by decide, rfl, by decide, rfl, by rfl, rfl,
    create_deep_merge_siblings
      ⟨["d"], [("d/c.yaml", .yaml (.dict [("a", .dict [("b", Value.int 3)])]))],
        [], [], .args []⟩
      "d" "c.yaml" "a" "b" "c" (Value.int 1) (Value.int 2) (Value.int 3)
      (by decide) rfl (by decide) rfl (by rfl) rfl⟩

/-- C5: when the configured directory does not exist, or the resolved
config file does not exist inside it, `create()` does not raise: the file
layer contributes an empty mapping and the other three layers are merged
as usual. -/
theorem missing_dir_or_file_degrades
    (s : ConfigState) (path : String) (conf env : Option String)
    (rc : RequiredInput) (av : Option (List String)) (L : List (String × Value))
    (hcli : s.cli = .args L)
    (h : s.fs_dirs.contains path = false ∨
      (∃ f, (⟨path, conf, env, rc, av.getD []⟩ : Config).conf = .ok (some f) ∧
        f ≠ "" ∧ assocLookup (path ++ "/" ++ f) s.fs_files = none)) :
    Config.create s path conf env rc av =
      .ok (mergeAll (⟨path, conf, env, rc, av.getD []⟩ : Config).required_config
        ((⟨path, conf, env, rc, av.getD []⟩ : Config).environment_config s).1
        (.dict []) (.dict L), load_dotenv s) := by
  have hc : Config.cli_config ⟨path, conf, env, rc, av.getD []⟩ (load_dotenv s) =
      .ok (.dict L) := by
    simp [Config.cli_config, load_dotenv, hcli]
  have hf : Config.file_config ⟨path, conf, env, rc, av.getD []⟩ (load_dotenv s) =
      .ok (.dict []) := by
    unfold Config.file_config
    rcases h with hdir | ⟨f, hcf, hfne, hlook⟩
    · have hdir2 : path ∉ s.fs_dirs := by simpa using hdir
      have hp : Config.path ⟨path, conf, env, rc, av.getD []⟩ (load_dotenv s) =
          none := by
        simp [Config.path, load_dotenv, hdir2]
      rw [hp]
    · cases hd : s.fs_dirs.contains path with
      | false =>
        have hd2 : path ∉ s.fs_dirs := by simpa using hd
        have hp : Config.path ⟨path, conf, env, rc, av.getD []⟩ (load_dotenv s) =
            none := by
          simp [Config.path, load_dotenv, hd2]
        rw [hp]
      | true =>
        have hd2 : path ∈ s.fs_dirs := by simpa using hd
        have hp : Config.path ⟨path, conf, env, rc, av.getD []⟩ (load_dotenv s) =
            some path := by
          simp [Config.path, load_dotenv, hd2]
        rw [hp, hcf]
        simp [hfne, load_dotenv, hlook]
  show Config.createImpl ⟨path, conf, env, rc, av.getD []⟩ s = _
  rw [createImpl_eq]
  simp only [hc, hf]

/-- Witness for C5: the directory exists but `./conf/production.yaml` does
not; `create()` succeeds with an empty file layer. -/
theorem missing_dir_or_file_degrades_witness :
    ((⟨["./conf"], [], [], [], .args []⟩ : ConfigState).cli = .args []) ∧
    ((⟨["./conf"], [], [], [], .args []⟩ : ConfigState).fs_dirs.contains "./conf" =
        false ∨
      (∃ f, (⟨"./conf", none, some "PROD", .parses (.dict []),
          (some DEFAULT_ALLOWED_ENVVARS : Option (List String)).getD []⟩ :
          Config).conf = .ok (some f) ∧ f ≠ "" ∧
        assocLookup ("./conf" ++ "/" ++ f)
          (⟨["./conf"], [], [], [], .args []⟩ : ConfigState).fs_files = none)) ∧
    Config.create ⟨["./conf"], [], [], [], .args []⟩ "./conf" none (some "PROD")
        (.parses (.dict [])) (some DEFAULT_ALLOWED_ENVVARS) =
      .ok (mergeAll (⟨"./conf", none, some "PROD", .parses (.dict []),
          (some DEFAULT_ALLOWED_ENVVARS : Option (List String)).getD []⟩ :
          Config).required_config
        ((⟨"./conf", none, some "PROD", .parses (.dict []),
          (some DEFAULT_ALLOWED_ENVVARS : Option (List String)).getD []⟩ :
          Config).environment_config ⟨["./conf"], [], [], [], .args []⟩).1
        (.dict []) (.dict []),
        load_dotenv ⟨["./conf"], [], [], [], .args []⟩) :=
  ⟨rfl,
    Or.inr ⟨"production.yaml", by rfl, by decide, rfl⟩,
    missing_dir_or_file_degrades ⟨["./conf"], [], [], [], .args []⟩ "./conf" none
      (some "PROD") (.parses (.dict [])) (some DEFAULT_ALLOWED_ENVVARS) [] rfl
      (Or.inr ⟨"production.yaml", by rfl, by decide, rfl⟩)⟩

/-- A malformed command line makes `create()` propagate the CLI parse
error, whatever the other inputs are. -/
theorem create_cli_malformed_raises (s : ConfigState) (path : String)
    (conf env : Option String) (rc : RequiredInput) (av : Option (List String))
    (hcli : s.cli = .malformed) :
    Config.create s path conf env rc av = .error .cliParseError := by
  have hc : Config.cli_config ⟨path, conf, env, rc, av.getD []⟩ (load_dotenv s) =
      .error .cliParseError := by
    simp [Config.cli_config, load_dotenv, hcli]
  show Config.createImpl ⟨path, conf, env, rc, av.getD []⟩ s = _
  rw [createImpl_eq]
  simp only [hc]

/-- An existing but malformed resolved YAML config file makes `create()`
propagate the YAML parse error (given a well-formed command line, which is
read first). -/
theorem create_yaml_malformed_raises (s : ConfigState) (path : String)
    (conf env : Option String) (rc : RequiredInput) (av : Option (List String))
    (L : List (String × Value)) (f : String)
    (hcli : s.cli = .args L)
    (hdir : s.fs_dirs.contains path = true)
    (hcf : (⟨path, conf, env, rc, av.getD []⟩ : Config).conf = .ok (some f))
    (hfne : f ≠ "")
    (hlook : assocLookup (path ++ "/" ++ f) s.fs_files = some .malformed) :
    Config.create s path conf env rc av = .error .yamlParseError := by
  have hc : Config.cli_config ⟨path, conf, env, rc, av.getD []⟩ (load_dotenv s) =
      .ok (.dict L) := by
    simp [Config.cli_config, load_dotenv, hcli]
  have hd2 : path ∈ s.fs_dirs := by simpa using hdir
  have hp : Config.path ⟨path, conf, env, rc, av.getD []⟩ (load_dotenv s) =
      some path := by
    simp [Config.path, load_dotenv, hd2]
  have hf : Config.file_config ⟨path, conf, env, rc, av.getD []⟩ (load_dotenv s) =
      .error .yamlParseError := by
    unfold Config.file_config
    rw [hp, hcf]
    simp [hfne, load_dotenv, hlook]
  show Config.createImpl ⟨path, conf, env, rc, av.getD []⟩ s = _
  rw [createImpl_eq]
  simp only [hc, hf]

/-- C6: a `requiredConfig` input whose parsing fails is swallowed. First
two conjuncts: the required layer degrades to an empty mapping and the
whole of `create()` behaves exactly as if an empty mapping had been
passed. Last two conjuncts: the required layer is the only one with a
local catch-and-degrade — a parse error of the CLI layer or of an existing
config file propagates unmodified. -/
theorem required_parse_failure_degrades :
    (∀ (path : String) (conf env : Option String) (av : Option (List String)),
      (⟨path, conf, env, RequiredInput.malformed, av.getD []⟩ :
        Config).required_config = .dict []) ∧
    (∀ (s : ConfigState) (path : String) (conf env : Option String)
       (av : Option (List String)),
      Config.create s path conf env .malformed av =
        Config.create s path conf env (.parses (.dict [])) av) ∧
    (∀ (s : ConfigState) (path : String) (conf env : Option String)
       (rc : RequiredInput) (av : Option (List String)),
       s.cli = .malformed →
       Config.create s path conf env rc av = .error .cliParseError) ∧
    (∀ (s : ConfigState) (path : String) (conf env : Option String)
       (rc : RequiredInput) (av : Option (List String))
       (L : List (String × Value)) (f : String),
       s.cli = .args L →
       s.fs_dirs.contains path = true →
       (⟨path, conf, env, rc, av.getD []⟩ : Config).conf = .ok (some f) →
       f ≠ "" →
       assocLookup (path ++ "/" ++ f) s.fs_files = some .malformed →
       Config.create s path conf env rc av = .error .yamlParseError) := by
  refine ⟨fun path conf env av => rfl, fun s path conf env av => ?_,
    create_cli_malformed_raises, create_yaml_malformed_raises⟩
  show Config.createImpl ⟨path, conf, env, .malformed, av.getD []⟩ s =
    Config.createImpl ⟨path, conf, env, .parses (.dict []), av.getD []⟩ s
  rw [createImpl_eq, createImpl_eq]
  rfl

/-- Witness for C6: a malformed required config behaves like the empty
mapping, while the CLI and file parse errors still propagate. -/
theorem required_parse_failure_degrades_witness :
    Config.create ⟨[], [], [], [], .args []⟩ "./conf" none (some "PROD")
        .malformed (some DEFAULT_ALLOWED_ENVVARS) =
      Config.create ⟨[], [], [], [], .args []⟩ "./conf" none (some "PROD")
        (.parses (.dict [])) (some DEFAULT_ALLOWED_ENVVARS) ∧
    ((⟨[], [], [], [], .malformed⟩ : ConfigState).cli = .malformed ∧
      Config.create ⟨[], [], [], [], .malformed⟩ "./conf" none (some "PROD")
          .malformed (some DEFAULT_ALLOWED_ENVVARS) =
        .error .cliParseError) ∧
    (assocLookup ("e" ++ "/" ++ "y.yaml")
        (⟨["e"], [("e/y.yaml", .malformed)], [], [], .args []⟩ :
          ConfigState).fs_files = some .malformed ∧
      Config.create ⟨["e"], [("e/y.yaml", .malformed)], [], [], .args []⟩ "e"
          (some "y.yaml") (some "PROD") .malformed
          (some DEFAULT_ALLOWED_ENVVARS) =
        .error .yamlParseError) :=
  ⟨required_parse_failure_degrades.2.1 ⟨[], [], [], [], .args []⟩ "./conf" none
      (some "PROD") (some DEFAULT_ALLOWED_ENVVARS),
    ⟨rfl, required_parse_failure_degrades.2.2.1 ⟨[], [], [], [], .malformed⟩
      "./conf" none (some "PROD") .malformed (some DEFAULT_ALLOWED_ENVVARS) rfl⟩,
    ⟨by rfl, required_parse_failure_degrades.2.2.2
      ⟨["e"], [("e/y.yaml", .malformed)], [], [], .args []⟩ "e" (some "y.yaml")
      (some "PROD") .malformed (some DEFAULT_ALLOWED_ENVVARS) [] "y.yaml"
      rfl rfl rfl (by decide) (by rfl)⟩⟩

/-- C7: parse errors of the CLI layer and of an existing config file are
not caught. First conjunct: a malformed command line makes `create()` raise
the CLI parse error, whatever the other inputs are. Second conjunct: a
well-formed command line together with an existing but malformed YAML
config file makes `create()` raise the YAML parse error. -/
theorem parse_errors_propagate :
    (∀ (s : ConfigState) (path : String) (conf env : Option String)
       (rc : RequiredInput) (av : Option (List String)),
       s.cli = .malformed →
       Config.create s path conf env rc av = .error .cliParseError) ∧
    (∀ (s : ConfigState) (path : String) (conf env : Option String)
       (rc : RequiredInput) (av : Option (List String))
       (L : List (String × Value)) (f : String),
       s.cli = .args L →
       s.fs_dirs.contains path = true →
       (⟨path, conf, env, rc, av.getD []⟩ : Config).conf = .ok (some f) →
       f ≠ "" →
       assocLookup (path ++ "/" ++ f) s.fs_files = some .malformed →
       Config.create s path conf env rc av = .error .yamlParseError) :=
  ⟨create_cli_malformed_raises, create_yaml_malformed_raises⟩

/-- Witness for C7: a malformed command line propagates `cliParseError`; a
malformed `d/x.yaml` that exists propagates `yamlParseError`. -/
theorem parse_errors_propagate_witness :
    ((⟨[], [], [], [], .malformed⟩ : ConfigState).cli = .malformed ∧
      Config.create ⟨[], [], [], [], .malformed⟩ "./conf" none (some "PROD")
          (.parses (.dict [])) (some DEFAULT_ALLOWED_ENVVARS) =
        .error .cliParseError) ∧
    ((⟨["d"], [("d/x.yaml", .malformed)], [], [], .args []⟩ :
        ConfigState).cli = .args [] ∧
      (⟨["d"], [("d/x.yaml", .malformed)], [], [], .args []⟩ :
        ConfigState).fs_dirs.contains "d" = true ∧
      (⟨"d", some "x.yaml", some "PROD", .parses (.dict []),
        (some DEFAULT_ALLOWED_ENVVARS : Option (List String)).getD []⟩ :
        Config).conf = .ok (some "x.yaml") ∧
      ("x.yaml" : String) ≠ "" ∧
      assocLookup ("d" ++ "/" ++ "x.yaml")
        (⟨["d"], [("d/x.yaml", .malformed)], [], [], .args []⟩ :
          ConfigState).fs_files = some .malformed ∧
      Config.create ⟨["d"], [("d/x.yaml", .malformed)], [], [], .args []⟩ "d"
          (some "x.yaml") (some "PROD") (.parses (.dict []))
          (some DEFAULT_ALLOWED_ENVVARS) =
        .error .yamlParseError) :=
  ⟨⟨rfl, parse_errors_propagate.1 ⟨[], [], [], [], .malformed⟩ "./conf" none
      (some "PROD") (.parses (.dict [])) (some DEFAULT_ALLOWED_ENVVARS) rfl⟩,
    ⟨rfl, rfl, rfl, by decide, by rfl,
      parse_errors_propagate.2 ⟨["d"], [("d/x.yaml", .malformed)], [], [], .args []⟩
        "d" (some "x.yaml") (some "PROD") (.parses (.dict []))
        (some DEFAULT_ALLOWED_ENVVARS) [] "x.yaml" rfl rfl rfl (by decide)
        (by rfl)⟩⟩

/-- A pair that is a member of an association list makes the lookup of its
key defined. -/
theorem assocLookup_isSome_of_mem {α : Type} (p : String × α)
    (l : List (String × α)) (hp : p ∈ l) :
    (assocLookup p.1 l).isSome = true := by
  induction l with
  | nil => cases hp
  | cons q rest ih =>
    obtain ⟨k2, w⟩ := q
    rw [assocLookup_cons]
    by_cases h : k2 = p.1
    · simp [h]
    · rw [if_neg h]
      rcases List.mem_cons.mp hp with heq | hmem
      · rw [heq] at h
        cases h rfl
      · exact ih hmem

/-- Loading the dotenv file is idempotent: after one load every dotenv key
is present in the process environment, so a second load adds nothing. -/
theorem load_dotenv_idem (s : ConfigState) :
    load_dotenv (load_dotenv s) = load_dotenv s := by
  cases s with
  | mk d fi e de c =>
    simp only [load_dotenv]
    congr 1
    have hnil : de.filter (fun p =>
        (assocLookup p.1
          (e ++ de.filter (fun q => (assocLookup q.1 e).isNone))).isNone) = [] := by
      rw [List.filter_eq_nil_iff]
      intro p hp
      rw [assocLookup_append]
      cases hpe : assocLookup p.1 e with
      | some w => simp
      | none =>
        rw [assocLookup_filter_key p.1 (fun y => (assocLookup y e).isNone) de]
        rw [hpe]
        simp only [Option.isNone_none, if_pos rfl]
        have := assocLookup_isSome_of_mem p de hp
        cases hl : assocLookup p.1 de with
        | none =>
          rw [hl] at this
          cases this
        | some w => simp
    rw [hnil, List.append_nil]

/-- C8: the build is deterministic in its inputs and external state. The
only state mutation `create()` performs is the dotenv load, and that is
idempotent: a second call on the state left behind by a successful first
call returns the very same value and state. -/
theorem create_deterministic (s : ConfigState) (path : String)
    (conf env : Option String) (rc : RequiredInput) (av : Option (List String))
    (m : Value) (s1 : ConfigState)
    (h : Config.create s path conf env rc av = .ok (m, s1)) :
    Config.create s1 path conf env rc av = .ok (m, s1) := by
  obtain ⟨clic, filec, hc, hf, hm, hs⟩ :=
    (createImpl_eq_ok ⟨path, conf, env, rc, av.getD []⟩ s m s1).mp h
  subst hs
  show Config.createImpl ⟨path, conf, env, rc, av.getD []⟩ (load_dotenv s) = _
  apply (createImpl_eq_ok ⟨path, conf, env, rc, av.getD []⟩ (load_dotenv s) m
    (load_dotenv s)).mpr
  refine ⟨clic, filec, ?_, ?_, ?_, ?_⟩
  · rw [load_dotenv_idem]
    exact hc
  · rw [load_dotenv_idem]
    exact hf
  · rw [hm]
    have henv : (Config.environment_config ⟨path, conf, env, rc, av.getD []⟩
        (load_dotenv s)).1 =
        (Config.environment_config ⟨path, conf, env, rc, av.getD []⟩ s).1 := by
      unfold Config.environment_config
      simp only [load_dotenv_idem]
    rw [henv]
  · rw [load_dotenv_idem]

/-- Witness for C8: a first `create()` call on a state with a dotenv file
loads it into the environment; a second call on the resulting state
returns the same value and state. -/
theorem create_deterministic_witness :
    Config.create ⟨[], [], [], [("k", "v")], .args []⟩ "./conf" none (some "PROD")
        (.parses (.dict [])) (some DEFAULT_ALLOWED_ENVVARS) =
      .ok (.dict [], ⟨[], [], [("k", "v")], [("k", "v")], .args []⟩) ∧
    Config.create ⟨[], [], [("k", "v")], [("k", "v")], .args []⟩ "./conf" none
        (some "PROD") (.parses (.dict [])) (some DEFAULT_ALLOWED_ENVVARS) =
      .ok (.dict [], ⟨[], [], [("k", "v")], [("k", "v")], .args []⟩) :=
  ⟨rfl,
    create_deterministic ⟨[], [], [], [("k", "v")], .args []⟩ "./conf" none
      (some "PROD") (.parses (.dict [])) (some DEFAULT_ALLOWED_ENVVARS)
      (.dict []) ⟨[], [], [("k", "v")], [("k", "v")], .args []⟩ rfl⟩

/-- C9: `create()` defaults the environment tag to `"PROD"`, so the
zero-argument call (with the default path `./conf` and no explicit `conf`)
reads `./conf/production.yaml` when that file exists, and merges its
contents as the file layer. -/
theorem create_default_env_prod (s : ConfigState) (v : Value)
    (L : List (String × Value))
    (hdir : s.fs_dirs.contains "./conf" = true)
    (hfile : assocLookup "./conf/production.yaml" s.fs_files = some (.yaml v))
    (hcli : s.cli = .args L) :
    Config.create s =
      .ok (mergeAll (.dict [])
        ((⟨"./conf", none, some "PROD", .parses (.dict []),
          DEFAULT_ALLOWED_ENVVARS⟩ : Config).environment_config s).1
        v (.dict L), load_dotenv s) := by
  have hc : Config.cli_config ⟨"./conf", none, some "PROD", .parses (.dict []),
      DEFAULT_ALLOWED_ENVVARS⟩ (load_dotenv s) = .ok (.dict L) := by
    simp [Config.cli_config, load_dotenv, hcli]
  have hd2 : "./conf" ∈ s.fs_dirs := by simpa using hdir
  have hp : Config.path ⟨"./conf", none, some "PROD", .parses (.dict []),
      DEFAULT_ALLOWED_ENVVARS⟩ (load_dotenv s) = some "./conf" := by
    simp [Config.path, load_dotenv, hd2]
  have hcf : (⟨"./conf", none, some "PROD", .parses (.dict []),
      DEFAULT_ALLOWED_ENVVARS⟩ : Config).conf = .ok (some "production.yaml") := rfl
  have hkey : ("./conf" ++ "/" ++ "production.yaml" : String) =
      "./conf/production.yaml" := rfl
  have hf : Config.file_config ⟨"./conf", none, some "PROD", .parses (.dict []),
      DEFAULT_ALLOWED_ENVVARS⟩ (load_dotenv s) = .ok v := by
    unfold Config.file_config
    rw [hp, hcf]
    simp [load_dotenv, hkey, hfile]
  show Config.createImpl ⟨"./conf", none, some "PROD", .parses (.dict []),
    DEFAULT_ALLOWED_ENVVARS⟩ s = _
  rw [createImpl_eq]
  simp only [hc, hf]
  rfl

/-- Witness for C9: `./conf/production.yaml` holds `x: y`; the zero-argument
call loads it. -/
theorem create_default_env_prod_witness :
    ((⟨["./conf"], [("./conf/production.yaml", .yaml (.dict [("x", .str "y")]))],
        [], [], .args []⟩ : ConfigState).fs_dirs.contains "./conf" = true) ∧
    (assocLookup "./conf/production.yaml"
      (⟨["./conf"], [("./conf/production.yaml", .yaml (.dict [("x", .str "y")]))],
        [], [], .args []⟩ : ConfigState).fs_files =
      some (.yaml (.dict [("x", .str "y")]))) ∧
    ((⟨["./conf"], [("./conf/production.yaml", .yaml (.dict [("x", .str "y")]))],
        [], [], .args []⟩ : ConfigState).cli = .args []) ∧
    Config.create
        ⟨["./conf"], [("./conf/production.yaml", .yaml (.dict [("x", .str "y")]))],
          [], [], .args []⟩ =
      .ok (mergeAll (.dict [])
        ((⟨"./conf", none, some "PROD", .parses (.dict []),
          DEFAULT_ALLOWED_ENVVARS⟩ : Config).environment_config
          ⟨["./conf"], [("./conf/production.yaml", .yaml (.dict [("x", .str "y")]))],
            [], [], .args []⟩).1
        (.dict [("x", .str "y")]) (.dict []),
        load_dotenv
          ⟨["./conf"], [("./conf/production.yaml", .yaml (.dict [("x", .str "y")]))],
            [], [], .args []⟩) :=
  ⟨rfl, rfl, rfl,
    create_default_env_prod
      ⟨["./conf"], [("./conf/production.yaml", .yaml (.dict [("x", .str "y")]))],
        [], [], .args []⟩
      (.dict [("x", .str "y")]) [] rfl rfl rfl⟩

/-- C10 counterexample: a call with `env=None` that does not raise. The
claim says every `create()` call with `env=None` raises from `.upper()` on
`None`; but when the configured directory does not exist, `file_config`
short-circuits on `self.path` before ever evaluating `self.conf`, so the
`env` property is never read and the call succeeds. -/
theorem create_env_none_counterexample :
    Config.create ⟨[], [], [], [], .args []⟩ "./conf" none none
      (.parses (.dict [])) (some DEFAULT_ALLOWED_ENVVARS) =
    .ok (.dict [], ⟨[], [], [], [], .args []⟩) := rfl

/-- C10 (amended): when the `env` property is actually evaluated — that is,
the configured directory exists and no truthy `conf` filename was given —
a call with `env=None` raises `AttributeError` from `.upper()` on `None`
(given a well-formed command line, which is read first); `None` is never
treated as an unrecognized tag. -/
theorem create_env_none_raises (s : ConfigState) (path : String)
    (conf : Option String) (rc : RequiredInput) (av : Option (List String))
    (L : List (String × Value))
    (hcli : s.cli = .args L)
    (hdir : s.fs_dirs.contains path = true)
    (hconf : strTruthy conf = false) :
    Config.create s path conf none rc av = .error .attributeError := by
  have hc : Config.cli_config ⟨path, conf, none, rc, av.getD []⟩ (load_dotenv s) =
      .ok (.dict L) := by
    simp [Config.cli_config, load_dotenv, hcli]
  have hd2 : path ∈ s.fs_dirs := by simpa using hdir
  have hp : Config.path ⟨path, conf, none, rc, av.getD []⟩ (load_dotenv s) =
      some path := by
    simp [Config.path, load_dotenv, hd2]
  have hcf : (⟨path, conf, none, rc, av.getD []⟩ : Config).conf =
      .error .attributeError := by
    simp only [Config.conf, hconf, Bool.false_eq_true, if_false]
    rfl
  have hf : Config.file_config ⟨path, conf, none, rc, av.getD []⟩ (load_dotenv s) =
      .error .attributeError := by
    unfold Config.file_config
    rw [hp, hcf]
  show Config.createImpl ⟨path, conf, none, rc, av.getD []⟩ s = _
  rw [createImpl_eq]
  simp only [hc, hf]

/-- Witness for C10 (amended): with `./conf` existing and no explicit
`conf`, `env=None` raises `AttributeError`. -/
theorem create_env_none_raises_witness :
    ((⟨["./conf"], [], [], [], .args []⟩ : ConfigState).cli = .args []) ∧
    ((⟨["./conf"], [], [], [], .args []⟩ : ConfigState).fs_dirs.contains "./conf" =
      true) ∧
    strTruthy none = false ∧
    Config.create ⟨["./conf"], [], [], [], .args []⟩ "./conf" none none
        (.parses (.dict [])) (some DEFAULT_ALLOWED_ENVVARS) =
      .error .attributeError :=
  ⟨rfl, rfl, rfl,
    create_env_none_raises ⟨["./conf"], [], [], [], .args []⟩ "./conf" none
      (.parses (.dict [])) (some DEFAULT_ALLOWED_ENVVARS) [] rfl rfl rfl⟩
